import Mathlib

/-!
Shallow embedding of the session/conversation state manager of the
personalized-ai-tutor backend (services/ai_service.py together with the
end-of-session flow in routes/session.py), and theorems settling the
specification claims about it.

The durable Transcript Store rows for one (user, session) pair are
modelled as a list of messages in insertion order; the in-memory
`active_sessions` entry for that session is an `Option (List Msg)`
(`none` when the session is not in memory).  External collaborators
(LLM completion provider, Polly speech synthesis, database commits)
are modelled as explicit oracle parameters: a commit either succeeds
or raises, a completion either returns text or raises.
-/

namespace TutorCore

/-- A chat message as held in the in-memory session buffer: the
`{"role": ..., "content": ...}` dictionaries of ai_service.py. -/
structure Msg where
  role : String
  content : String
deriving DecidableEq

/-- `MAX_HISTORY_LENGTH` constant, ai_service.py line 44. -/
def MAX_HISTORY_LENGTH : Nat := 10

/-- Append one message to a session buffer and prune to the most recent
`MAX_HISTORY_LENGTH` entries.  Models `self.active_sessions[session_id].append(...)`
followed by the `[-MAX_HISTORY_LENGTH:]` slice guarded by the length check
(ai_service.py lines 334-340; the identical append-and-prune is repeated at
lines 431-436 and 455-458 for the assistant turn). -/
def appendBounded (buf : List Msg) (m : Msg) : List Msg :=
  if (buf ++ [m]).length > MAX_HISTORY_LENGTH then
    (buf ++ [m]).drop ((buf ++ [m]).length - MAX_HISTORY_LENGTH)
  else
    buf ++ [m]

/-- State of one (user, session) pair: the durable Transcript Store rows
(`SessionMessage` rows, in timestamp/insertion order) and the in-memory
buffer (`self.active_sessions.get(session_id)`). -/
structure SessionState where
  db : List Msg
  mem : Option (List Msg)
deriving DecidableEq

/-- `AIService._save_session_messages_from_memory` (ai_service.py lines
492-548).  Returns `(success, n_saved, new state)`.  The session absent
from memory yields `(false, 0)`; an empty buffer yields `(true, 0)`;
otherwise the in-memory length is compared with the durable count and
exactly the surplus `messages_in_memory[existing_db_messages_count:]`
is appended and committed.  `commitOk` is the oracle for the database
work inside the `try` block: `false` models an exception, after which
the rollback leaves the durable rows unchanged and `(false, 0)` is
returned. -/
def save_session_messages_from_memory (s : SessionState) (commitOk : Bool) :
    Bool × Nat × SessionState :=
  match s.mem with
  | none => (false, 0, s)
  | some buf =>
    if buf.isEmpty then (true, 0, s)
    else if buf.length > s.db.length then
      if commitOk then
        (true, buf.length - s.db.length, { s with db := s.db ++ buf.drop s.db.length })
      else
        (false, 0, s)
    else
      (true, 0, s)

/-- `AIService.end_session` (ai_service.py lines 550-566): flush from
memory; on success delete the session from `active_sessions` and return
`true`, on failure leave memory intact and return `false`. -/
def end_session (s : SessionState) (commitOk : Bool) : Bool × SessionState :=
  let r := save_session_messages_from_memory s commitOk
  if r.1 then (true, { r.2.2 with mem := none }) else (false, r.2.2)

/-- `AIService.save_session` (ai_service.py lines 568-572): flush from
memory without ending the session. -/
def save_session (s : SessionState) (commitOk : Bool) : Bool × SessionState :=
  let r := save_session_messages_from_memory s commitOk
  (r.1, r.2.2)

/-- One observable event in the life of an in-memory session: an append
into the buffer performed by a `generate_response` turn (each turn
appends the user utterance and, on provider success, the assistant
reply, each through the append-and-prune of `appendBounded`), or a
mid-session `save_session` flush with its commit oracle. -/
inductive Ev where
  | app (m : Msg)
  | save (commitOk : Bool)
deriving DecidableEq

/-- Effect of one event on the session state.  An append only happens
while the session is in `active_sessions` (generate_response guarantees
the buffer is loaded, ai_service.py lines 307-318). -/
def stepEv (s : SessionState) (e : Ev) : SessionState :=
  match e with
  | Ev.app m =>
    match s.mem with
    | some buf => { s with mem := some (appendBounded buf m) }
    | none => s
  | Ev.save c => (save_session_messages_from_memory s c).2.2

/-- Run a sequence of session events from a starting state. -/
def runTrace (s : SessionState) (t : List Ev) : SessionState :=
  t.foldl stepEv s

/-- The messages ever appended into the in-memory buffer along a trace,
in order. -/
def appendedMsgs : List Ev → List Msg
  | [] => []
  | Ev.app m :: t => m :: appendedMsgs t
  | Ev.save _ :: t => appendedMsgs t

/-- State of a session right after `AIService.create_session`
(ai_service.py line 154): no durable rows yet and an empty in-memory
buffer registered in `active_sessions`. -/
def freshSession : SessionState := { db := [], mem := some [] }

/-- A durable `SessionMessage` row as seen by session resolution: its
session id and its timestamp, modelled as seconds on an absolute scale
(`total_seconds` of timestamp differences is timezone independent, so
the IST conversions in the source cancel out). -/
structure StoredMsg where
  session_id : String
  timestamp : Int
deriving DecidableEq

/-- The `order_by(desc(timestamp)).first()` query of ai_service.py lines
159-161: a message of maximal timestamp, `none` on an empty table. -/
def latestMessage (msgs : List StoredMsg) : Option StoredMsg :=
  msgs.foldl
    (fun acc m =>
      match acc with
      | none => some m
      | some b => if m.timestamp > b.timestamp then some m else some b)
    none

/-- The two-hour resumability window in seconds, ai_service.py line 175. -/
def RESUME_WINDOW_SECONDS : Int := 2 * 60 * 60

/-- `AIService.get_active_session` (ai_service.py lines 157-181): the
most recent durable message is resumable exactly when
`(now - message_time).total_seconds() < 2*60*60`. -/
def get_active_session (now : Int) (msgs : List StoredMsg) : Option String :=
  match latestMessage msgs with
  | none => none
  | some m =>
    if now - m.timestamp < RESUME_WINDOW_SECONDS then some m.session_id else none

/-- Session resolution at the top of `AIService.generate_response`
(ai_service.py lines 307-311): resume the active session if one exists,
otherwise create a fresh one (`freshId` stands for the id minted by
`create_session`). -/
def resolve_or_create (now : Int) (msgs : List StoredMsg) (freshId : String) : String :=
  match get_active_session now msgs with
  | some sid => sid
  | none => freshId

/-- LLM message-list assembly of ai_service.py lines 321-327: system
prompt, then the in-memory history, then the new user utterance; if the
resulting list is longer than `MAX_HISTORY_LENGTH + 1` it is replaced by
`[messages[0]] + messages[-MAX_HISTORY_LENGTH:]`. -/
def assembleMessages (systemPrompt : Msg) (history : List Msg) (userInput : String) : List Msg :=
  let msgs := systemPrompt :: (history ++ [Msg.mk "user" userInput])
  if msgs.length > MAX_HISTORY_LENGTH + 1 then
    systemPrompt :: msgs.drop (msgs.length - MAX_HISTORY_LENGTH)
  else
    msgs

/-- Modelled from the spec: assembly as §4.2 step 3 words it, "system
prompt, then the in-memory history truncated to the most recent N
messages (N = 10), then the new user utterance appended last".  Used
only as the comparison point for the refinement claim about
`assembleMessages`. -/
def assembleMessagesSpec (systemPrompt : Msg) (history : List Msg) (userInput : String) : List Msg :=
  systemPrompt :: (history.drop (history.length - MAX_HISTORY_LENGTH) ++ [Msg.mk "user" userInput])

/-- Outcome of one non-streaming call to the Completion Provider:
either the (stripped) reply text, or an exception. -/
inductive ProviderResult where
  | ok (text : String)
  | fail
deriving DecidableEq

/-- The fixed apology returned by `generate_response` when the
non-streaming provider call raises, ai_service.py line 464. -/
def nonStreamErrorMessage : String :=
  "I'm sorry, I encountered an error trying to process your request. Please try again."

/-- Memory effect and return value of one non-streaming
`generate_response` turn for a loaded session buffer (ai_service.py
lines 334-340 and 443-475): the user utterance is appended (and pruned)
before the provider call; on success the assistant reply is appended
(and pruned) and returned; on failure nothing further is appended and
the fixed apology is returned.  The result is
`(new buffer, returned text)`. -/
def generate_response (buf : List Msg) (userInput : String) (provider : ProviderResult) :
    List Msg × String :=
  let buf1 := appendBounded buf (Msg.mk "user" userInput)
  match provider with
  | ProviderResult.ok text => (appendBounded buf1 (Msg.mk "assistant" text), text)
  | ProviderResult.fail => (buf1, nonStreamErrorMessage)

/-- One typed event yielded by the streaming generator of
`generate_response` (the `json.dumps({...}) + "\n"` lines of
ai_service.py lines 345-440). -/
inductive StreamEvent where
  | word (w : String)
  | audio (a : String)
  | sentenceEnd
  | error (msg : String)
deriving DecidableEq

/-- The `[.!?]+` sentence-terminal search of ai_service.py line 364
applied to one word. -/
def isSentenceTerminal (w : String) : Bool :=
  w.any fun c => c == '.' || c == '!' || c == '?'

/-- Python's `str.split()` on whitespace with empty pieces discarded,
used for the word-level processing of ai_service.py line 372. -/
def pyWords (s : String) : List String :=
  (s.split Char.isWhitespace).filter (fun w => w ≠ "")

/-- Accumulator of the streaming loop: events yielded so far and the
`current_sentence` buffer. -/
structure StreamAcc where
  events : List StreamEvent
  currentSentence : String

/-- Processing of one word inside the streaming loop (ai_service.py
lines 373-407): yield the word, extend the sentence buffer, and on a
sentence-terminal word synthesize audio (yielded only when the
synthesizer returns a stream) followed by a sentence-end marker,
resetting the sentence buffer.  `tts` models Polly: `none` covers both
a missing AudioStream and a synthesis error. -/
def processWord (tts : String → Option String) (acc : StreamAcc) (w : String) : StreamAcc :=
  let cs := if acc.currentSentence = "" then w else acc.currentSentence ++ " " ++ w
  let evs := acc.events ++ [StreamEvent.word w]
  if isSentenceTerminal w then
    let audioEvs :=
      match tts cs with
      | some a => [StreamEvent.audio a]
      | none => []
    { events := evs ++ audioEvs ++ [StreamEvent.sentenceEnd], currentSentence := "" }
  else
    { events := evs, currentSentence := cs }

/-- The full chunk loop of the streaming generator plus the trailing
partial-sentence flush (ai_service.py lines 366-428); returns the
yielded events and the accumulated `full_response`. -/
def processChunks (tts : String → Option String) (chunks : List String) :
    List StreamEvent × String :=
  let acc :=
    chunks.foldl (fun acc chunk => (pyWords chunk).foldl (processWord tts) acc)
      { events := [], currentSentence := "" }
  let events :=
    if acc.currentSentence ≠ "" then
      acc.events ++
        (match tts acc.currentSentence with
          | some a => [StreamEvent.audio a]
          | none => []) ++
        [StreamEvent.sentenceEnd]
    else
      acc.events
  (events, String.join chunks)

/-- Outcome of the streaming provider call: the non-empty content deltas
of the chunks, or an exception at the call. -/
inductive StreamProviderResult where
  | ok (chunks : List String)
  | fail
deriving DecidableEq

/-- The single error event yielded when the streaming provider call
raises, ai_service.py line 440. -/
def streamErrorMessage : String :=
  "I'm sorry, an error occurred while generating the response."

/-- Memory effect and yielded events of one streaming
`generate_response` turn (ai_service.py lines 334-340 and 344-442): the
user utterance is appended before the generator runs; the generator
first checks Polly availability (yielding a single error event if the
client is unavailable), then streams words/audio/sentence markers, and
appends the accumulated assistant text on success; a provider failure
yields exactly one error event and appends nothing further. -/
def generate_response_streaming (pollyAvailable : Bool) (tts : String → Option String)
    (buf : List Msg) (userInput : String) (provider : StreamProviderResult) :
    List Msg × List StreamEvent :=
  let buf1 := appendBounded buf (Msg.mk "user" userInput)
  if pollyAvailable then
    match provider with
    | StreamProviderResult.fail => (buf1, [StreamEvent.error streamErrorMessage])
    | StreamProviderResult.ok chunks =>
      let r := processChunks tts chunks
      (appendBounded buf1 (Msg.mk "assistant" r.2), r.1)
  else
    (buf1, [StreamEvent.error "Text-to-speech service is unavailable."])

/-- The core fields of a durable `UserProfile` row touched by the
session lifecycle: the cumulative summary and the session counter. -/
structure Profile where
  total_sessions : Nat
  cumulative_summary : String
deriving DecidableEq

/-- The placeholder profile created on first access,
ai_service.py lines 580-591. -/
def defaultProfile : Profile := { total_sessions := 0, cumulative_summary := "" }

/-- `AIService._get_or_create_user_profile` (ai_service.py lines
574-603): an existing row is returned; otherwise a default row is
created and committed, and a commit failure is rolled back and
RE-RAISED to the caller (the explicit `raise` at line 601), modelled as
`Except.error`. -/
def get_or_create_user_profile (existing : Option Profile) (createCommitOk : Bool) :
    Except Unit Profile :=
  match existing with
  | some p => Except.ok p
  | none => if createCommitOk then Except.ok defaultProfile else Except.error ()

/-- `AIService.create_session` (ai_service.py lines 145-155): mint a
session id, ensure the user profile exists (any exception from
`get_or_create_user_profile` propagates — there is no handler), and
register an empty buffer.  Returns the id and the fresh per-session
state. -/
def create_session (existing : Option Profile) (createCommitOk : Bool)
    (newSessionId : String) : Except Unit (String × SessionState) :=
  match get_or_create_user_profile existing createCommitOk with
  | Except.error e => Except.error e
  | Except.ok _ => Except.ok (newSessionId, freshSession)

/-- First list starts with the second. -/
def listStartsWith : List Char → List Char → Bool
  | _, [] => true
  | [], _ :: _ => false
  | c :: cs, p :: ps => c == p && listStartsWith cs ps

/-- The pattern occurs as a contiguous run somewhere in the list. -/
def listContainsSub (l pat : List Char) : Bool :=
  listStartsWith l pat ||
    match l with
    | [] => false
    | _ :: cs => listContainsSub cs pat

/-- Python's `pat in s` substring test, on the character sequences of
the two strings. -/
def containsSubstring (s pat : String) : Bool :=
  listContainsSub s.data pat.data

/-- `AIService.summarize_session` (ai_service.py lines 605-722) reduced
to its state effect.  Inputs: the profile row (if any) with the
creation oracle, the durable transcript of the session, the LLM outcome
(`none` for an exception), the formatted session timestamp string, and
the commit oracle for the final profile update.  Returns
`(success, profile row afterwards)`: an empty transcript, a profile
bootstrap failure, an LLM failure, a validation failure (empty output
or output not containing the timestamp string) or a commit failure all
yield `false` with the summary unchanged; on success the cumulative
summary is replaced and `total_sessions` is incremented by one in one
commit. -/
def summarize_session (existing : Option Profile) (createCommitOk : Bool)
    (transcript : List Msg) (llmOut : Option String) (tsStr : String)
    (summaryCommitOk : Bool) : Bool × Option Profile :=
  if transcript.isEmpty then (false, existing)
  else
    match get_or_create_user_profile existing createCommitOk with
    | Except.error _ => (false, existing)
    | Except.ok p =>
      match llmOut with
      | none => (false, some p)
      | some out =>
        if out = "" ∨ ¬ containsSubstring out tsStr then (false, some p)
        else if summaryCommitOk then
          (true,
            some { cumulative_summary := out, total_sessions := p.total_sessions + 1 })
        else (false, some p)

/-- The `/sessions/{session_id}/end` route handler
`end_session_and_summarize` (routes/session.py lines 164-223): end the
session (flushing memory to the store), run `summarize_session` on the
durable transcript, then — regardless of summarization success — fetch
the profile row and, when it exists, increment `total_sessions` once
more in its own commit (`incrementCommitOk` oracle; a failure is rolled
back).  Returns
`(session_was_active, summary_updated, session state, profile row)`. -/
def end_session_and_summarize (s : SessionState) (flushCommitOk : Bool)
    (existing : Option Profile) (createCommitOk : Bool)
    (llmOut : Option String) (tsStr : String)
    (summaryCommitOk : Bool) (incrementCommitOk : Bool) :
    Bool × Bool × SessionState × Option Profile :=
  let ended := end_session s flushCommitOk
  let summ :=
    summarize_session existing createCommitOk ended.2.db llmOut tsStr summaryCommitOk
  let profileAfter :=
    match summ.2 with
    | some p =>
      if incrementCommitOk then some { p with total_sessions := p.total_sessions + 1 }
      else some p
    | none => none
  (ended.1, summ.1, ended.2, profileAfter)

/-- Reconciliation invariant between the durable rows and the live
buffer of a session: the session is in memory with buffer `buf`, and
the durable rows are exactly the first `db.length` positions of `buf`
(the position-wise comparison that the count-based flush of
`save_session_messages_from_memory` relies on). -/
def DbPrefixOfBuf (s : SessionState) (buf : List Msg) : Prop :=
  s.mem = some buf ∧ s.db = buf.take s.db.length ∧ s.db.length ≤ buf.length

/-- Concrete trace of eleven appends (six turns' worth of messages)
into one fresh session, with no intermediate flush. -/
def elevenAppendTrace : List Ev :=
  [Ev.app (Msg.mk "user" "m0"), Ev.app (Msg.mk "assistant" "m1"),
   Ev.app (Msg.mk "user" "m2"), Ev.app (Msg.mk "assistant" "m3"),
   Ev.app (Msg.mk "user" "m4"), Ev.app (Msg.mk "assistant" "m5"),
   Ev.app (Msg.mk "user" "m6"), Ev.app (Msg.mk "assistant" "m7"),
   Ev.app (Msg.mk "user" "m8"), Ev.app (Msg.mk "assistant" "m9"),
   Ev.app (Msg.mk "user" "m10")]

/-- Concrete trace of two appends (one successful turn) into a fresh
session. -/
def twoAppendTrace : List Ev :=
  [Ev.app (Msg.mk "user" "hello"), Ev.app (Msg.mk "assistant" "hi there")]

/-- Fifteen concrete messages, appended across turns into one session
buffer. -/
def fifteenMsgs : List Msg :=
  [Msg.mk "user" "a0", Msg.mk "assistant" "a1", Msg.mk "user" "a2",
   Msg.mk "assistant" "a3", Msg.mk "user" "a4", Msg.mk "assistant" "a5",
   Msg.mk "user" "a6", Msg.mk "assistant" "a7", Msg.mk "user" "a8",
   Msg.mk "assistant" "a9", Msg.mk "user" "a10", Msg.mk "assistant" "a11",
   Msg.mk "user" "a12", Msg.mk "assistant" "a13", Msg.mk "user" "a14"]

/-- A full in-memory history of ten concrete messages. -/
def tenHistory : List Msg :=
  [Msg.mk "user" "h0", Msg.mk "assistant" "h1", Msg.mk "user" "h2",
   Msg.mk "assistant" "h3", Msg.mk "user" "h4", Msg.mk "assistant" "h5",
   Msg.mk "user" "h6", Msg.mk "assistant" "h7", Msg.mk "user" "h8",
   Msg.mk "assistant" "h9"]

/-! ## Helper lemmas about the append-and-prune buffer discipline -/

theorem appendBounded_eq_drop (buf : List Msg) (m : Msg)
    (h : buf.length ≤ MAX_HISTORY_LENGTH) :
    appendBounded buf m =
      (buf ++ [m]).drop ((buf ++ [m]).length - MAX_HISTORY_LENGTH) := by
  have hM : MAX_HISTORY_LENGTH = 10 := rfl
  unfold appendBounded
  split
  · rfl
  · next hlen =>
    have hz : (buf ++ [m]).length - MAX_HISTORY_LENGTH = 0 := by omega
    rw [hz, List.drop_zero]

theorem appendBounded_length_le (buf : List Msg) (m : Msg)
    (h : buf.length ≤ MAX_HISTORY_LENGTH) :
    (appendBounded buf m).length ≤ MAX_HISTORY_LENGTH := by
  have hM : MAX_HISTORY_LENGTH = 10 := rfl
  unfold appendBounded
  split
  · next hlen =>
    rw [List.length_drop]
    omega
  · next hlen =>
    simp only [List.length_append, List.length_cons, List.length_nil] at *
    omega

theorem appendBounded_of_lt (buf : List Msg) (m : Msg)
    (h : buf.length < MAX_HISTORY_LENGTH) :
    appendBounded buf m = buf ++ [m] := by
  unfold appendBounded
  split
  · next hlen =>
    simp only [List.length_append, List.length_cons, List.length_nil] at hlen
    omega
  · rfl

theorem foldl_appendBounded (msgs : List Msg) :
    ∀ buf : List Msg, buf.length ≤ MAX_HISTORY_LENGTH →
      msgs.foldl appendBounded buf =
        (buf ++ msgs).drop ((buf ++ msgs).length - MAX_HISTORY_LENGTH) := by
  have hM : MAX_HISTORY_LENGTH = 10 := rfl
  induction msgs with
  | nil =>
    intro buf h
    simp only [List.foldl_nil, List.append_nil]
    have hz : buf.length - MAX_HISTORY_LENGTH = 0 := by omega
    rw [hz, List.drop_zero]
  | cons m rest ih =>
    intro buf h
    have h1 : (appendBounded buf m).length ≤ MAX_HISTORY_LENGTH :=
      appendBounded_length_le buf m h
    rw [List.foldl_cons, ih _ h1, appendBounded_eq_drop buf m h]
    have hd : (buf ++ [m]).length - MAX_HISTORY_LENGTH ≤ (buf ++ [m]).length := by omega
    rw [← List.drop_append_of_le_length hd, List.drop_drop]
    have hla : buf ++ m :: rest = (buf ++ [m]) ++ rest := by simp
    rw [hla]
    congr 1
    simp only [List.length_drop, List.length_append, List.length_cons, List.length_nil]
    omega

/-! ## Trace invariant: durable rows stay a positional prefix of the buffer
as long as the buffer never overflows -/

theorem stepEv_save_inv (s : SessionState) (buf : List Msg) (c : Bool)
    (hmem : s.mem = some buf) (hdb : s.db = buf.take s.db.length)
    (hle : s.db.length ≤ buf.length) :
    stepEv s (Ev.save c) = s ∨ stepEv s (Ev.save c) = { s with db := buf } := by
  simp only [stepEv, save_session_messages_from_memory, hmem]
  by_cases hempty : buf.isEmpty
  · left; simp [hempty]
  · by_cases hsurp : buf.length > s.db.length
    · cases c with
      | false => left; simp [hempty, hsurp]
      | true =>
        right
        have hcomb : s.db ++ List.drop s.db.length buf = buf := by
          nth_rewrite 1 [hdb]
          exact List.take_append_drop s.db.length buf
        simp [hempty, hsurp, hcomb]
    · left; simp [hempty, hsurp]

theorem runTrace_inv (t : List Ev) :
    ∀ (s : SessionState) (buf : List Msg), DbPrefixOfBuf s buf →
      (buf ++ appendedMsgs t).length ≤ MAX_HISTORY_LENGTH →
      DbPrefixOfBuf (runTrace s t) (buf ++ appendedMsgs t) := by
  have hM : MAX_HISTORY_LENGTH = 10 := rfl
  induction t with
  | nil =>
    intro s buf hInv hlen
    simpa [runTrace, appendedMsgs] using hInv
  | cons e t ih =>
    intro s buf hInv hlen
    obtain ⟨hmem, hdb, hle⟩ := hInv
    cases e with
    | app m =>
      have happ : appendedMsgs (Ev.app m :: t) = m :: appendedMsgs t := rfl
      rw [happ] at hlen
      have hlen' : buf.length + 1 + (appendedMsgs t).length ≤ MAX_HISTORY_LENGTH := by
        simp only [List.length_append, List.length_cons] at hlen
        omega
      have hbuflt : buf.length < MAX_HISTORY_LENGTH := by omega
      have hstep : stepEv s (Ev.app m) = { s with mem := some (buf ++ [m]) } := by
        simp [stepEv, hmem, appendBounded_of_lt buf m hbuflt]
      have hInv' : DbPrefixOfBuf { s with mem := some (buf ++ [m]) } (buf ++ [m]) := by
        refine ⟨rfl, ?_, ?_⟩
        · show s.db = (buf ++ [m]).take s.db.length
          rw [List.take_append_of_le_length hle]
          exact hdb
        · show s.db.length ≤ (buf ++ [m]).length
          simp only [List.length_append, List.length_cons, List.length_nil]
          omega
      have hlen'' : ((buf ++ [m]) ++ appendedMsgs t).length ≤ MAX_HISTORY_LENGTH := by
        simp only [List.length_append, List.length_cons, List.length_nil]
        omega
      have hrest := ih _ _ hInv' hlen''
      have hruns : runTrace s (Ev.app m :: t) = runTrace (stepEv s (Ev.app m)) t := rfl
      rw [hruns, hstep, happ]
      have hassoc : (buf ++ [m]) ++ appendedMsgs t = buf ++ m :: appendedMsgs t := by
        simp
      rw [hassoc] at hrest
      exact hrest
    | save c =>
      have hstep := stepEv_save_inv s buf c hmem hdb hle
      have hInv' : DbPrefixOfBuf (stepEv s (Ev.save c)) buf := by
        cases hstep with
        | inl heq => rw [heq]; exact ⟨hmem, hdb, hle⟩
        | inr heq =>
          rw [heq]
          exact ⟨hmem, by simp, by simp⟩
      have hlen' : (buf ++ appendedMsgs t).length ≤ MAX_HISTORY_LENGTH := by
        simpa [appendedMsgs] using hlen
      have hrest := ih _ _ hInv' hlen'
      have hruns : runTrace s (Ev.save c :: t) = runTrace (stepEv s (Ev.save c)) t := rfl
      rw [hruns]
      simpa [appendedMsgs] using hrest

theorem end_session_of_inv (s : SessionState) (buf : List Msg)
    (hInv : DbPrefixOfBuf s buf) :
    end_session s true = (true, { db := buf, mem := none }) := by
  obtain ⟨hmem, hdb, hle⟩ := hInv
  simp only [end_session, save_session_messages_from_memory, hmem]
  by_cases hempty : buf.isEmpty
  · have hbuf : buf = [] := List.isEmpty_iff.mp hempty
    subst hbuf
    have hdbnil : s.db = [] := by simpa using hdb
    simp [hempty, hdbnil]
  · by_cases hsurp : buf.length > s.db.length
    · have hcomb : s.db ++ List.drop s.db.length buf = buf := by
        nth_rewrite 1 [hdb]
        exact List.take_append_drop s.db.length buf
      simp [hempty, hsurp, hcomb]
    · have hlen : s.db.length = buf.length := by omega
      have hdbeq : s.db = buf := by rw [hdb, hlen, List.take_length]
      simp [hempty, hsurp, hdbeq]

/-! ## Helper lemmas about the flush operation -/

theorem save_mem_unchanged (s : SessionState) (c : Bool) :
    (save_session_messages_from_memory s c).2.2.mem = s.mem := by
  rcases s with ⟨db, mem⟩
  cases mem with
  | none => rfl
  | some buf =>
    simp only [save_session_messages_from_memory]
    split_ifs <;> rfl

theorem save_noop_of_no_surplus (s : SessionState) (c : Bool) (buf : List Msg)
    (hmem : s.mem = some buf) (hle : buf.length ≤ s.db.length) :
    save_session_messages_from_memory s c = (true, 0, s) := by
  simp only [save_session_messages_from_memory, hmem]
  by_cases hempty : buf.isEmpty
  · simp [hempty]
  · have hns : ¬ (buf.length > s.db.length) := by omega
    simp [hempty, hns]

theorem save_success_db_ge (s : SessionState) (c : Bool) (buf : List Msg)
    (hmem : s.mem = some buf)
    (h : (save_session_messages_from_memory s c).1 = true) :
    buf.length ≤ (save_session_messages_from_memory s c).2.2.db.length := by
  simp only [save_session_messages_from_memory, hmem] at h ⊢
  by_cases hempty : buf.isEmpty
  · have hb : buf = [] := List.isEmpty_iff.mp hempty
    subst hb
    simp
  · by_cases hsurp : buf.length > s.db.length
    · cases c with
      | false => simp [hempty, hsurp] at h
      | true =>
        simp only [hempty, hsurp, if_true]
        simp only [Bool.false_eq_true, if_false, ite_true, List.length_append,
          List.length_drop]
        omega
    · simp only [hempty, hsurp, if_false]
      simp only [Bool.false_eq_true, ite_false]
      omega

/-! ## Claim C1 -/

/-- C1 (counterexample): after eleven appends into a fresh session's
buffer with no intermediate flush, `end_session` returns `true`, yet
the Transcript Store afterwards holds only ten messages — not the
eleven that were ever appended — and the first appended message is
missing, because the count-based flush only persists what survived the
10-message prune.  This refutes the claim that a successful
`end_session` durably stores every message ever appended, including
messages appended after the buffer exceeded the bound. -/
theorem C1_counterexample :
    (end_session (runTrace freshSession elevenAppendTrace) true).1 = true ∧
    (appendedMsgs elevenAppendTrace).length = 11 ∧
    (end_session (runTrace freshSession elevenAppendTrace) true).2.db.length = 10 ∧
    Msg.mk "user" "m0" ∈ appendedMsgs elevenAppendTrace ∧
    Msg.mk "user" "m0" ∉ (end_session (runTrace freshSession elevenAppendTrace) true).2.db := by
  decide

/-- C1 (amended): for a fresh session, along any trace of buffer
appends and mid-session saves in which at most `MAX_HISTORY_LENGTH`
(10) messages are ever appended — so the sliding-window prune never
discards an entry — a successful `end_session` leaves the Transcript
Store holding exactly the messages ever appended, in order, with no
loss and no duplication.  Messages pruned out of the buffer before
being flushed are lost, as the counterexample shows. -/
theorem C1_end_session_flushes_unpruned_history (t : List Ev)
    (h : (appendedMsgs t).length ≤ MAX_HISTORY_LENGTH) :
    (end_session (runTrace freshSession t) true).1 = true ∧
    (end_session (runTrace freshSession t) true).2.db = appendedMsgs t := by
  have hfresh : DbPrefixOfBuf freshSession [] := ⟨rfl, rfl, Nat.le_refl 0⟩
  have hInv := runTrace_inv t freshSession [] hfresh (by simpa using h)
  rw [List.nil_append] at hInv
  rw [end_session_of_inv _ _ hInv]
  exact ⟨rfl, rfl⟩

/-- Witness for the amended C1 theorem on a concrete two-message
trace. -/
theorem C1_end_session_flushes_unpruned_history_witness :
    (appendedMsgs twoAppendTrace).length ≤ MAX_HISTORY_LENGTH ∧
    ((end_session (runTrace freshSession twoAppendTrace) true).1 = true ∧
     (end_session (runTrace freshSession twoAppendTrace) true).2.db =
       appendedMsgs twoAppendTrace) :=
  ⟨by decide, C1_end_session_flushes_unpruned_history twoAppendTrace (by decide)⟩

/-! ## Claim C3 -/

/-- C3: after any sequence of fifteen message appends into one
session's buffer through the append-and-prune discipline of
`generate_response`, the buffer never exceeds ten messages at any
point, and the ten retained messages are exactly the most recent ten
appended, in their original order (`msgs.drop 5`). -/
theorem C3_history_bound (msgs : List Msg) (h : msgs.length = 15) :
    (∀ k : Nat,
      ((msgs.take k).foldl appendBounded []).length ≤ MAX_HISTORY_LENGTH) ∧
    msgs.foldl appendBounded [] = msgs.drop 5 := by
  have hM : MAX_HISTORY_LENGTH = 10 := rfl
  constructor
  · intro k
    rw [foldl_appendBounded (msgs.take k) [] (by simp)]
    simp only [List.nil_append, List.length_drop, List.length_take]
    omega
  · rw [foldl_appendBounded msgs [] (by simp)]
    simp only [List.nil_append]
    rw [h, hM]

/-- Witness for C3 on fifteen concrete messages. -/
theorem C3_history_bound_witness :
    fifteenMsgs.length = 15 ∧
    ((∀ k : Nat,
        ((fifteenMsgs.take k).foldl appendBounded []).length ≤ MAX_HISTORY_LENGTH) ∧
     fifteenMsgs.foldl appendBounded [] = fifteenMsgs.drop 5) :=
  ⟨by decide, C3_history_bound fifteenMsgs (by decide)⟩

/-! ## Claim C8 -/

/-- C8 (counterexample): with a full ten-message history, the list the
code actually sends to the provider is the system prompt plus the last
ten elements of `history ++ [utterance]` — eleven messages with only
the nine most recent history entries — whereas the claim's assembly
(system prompt, history truncated to the most recent ten, then the
utterance) has twelve messages and keeps all ten history entries.  The
two disagree, and the oldest history message is absent from what the
provider sees. -/
theorem C8_counterexample :
    assembleMessages (Msg.mk "system" "sys") tenHistory "u" ≠
      assembleMessagesSpec (Msg.mk "system" "sys") tenHistory "u" ∧
    (assembleMessages (Msg.mk "system" "sys") tenHistory "u").length = 11 ∧
    (assembleMessagesSpec (Msg.mk "system" "sys") tenHistory "u").length = 12 ∧
    Msg.mk "user" "h0" ∉ assembleMessages (Msg.mk "system" "sys") tenHistory "u" := by
  decide

/-- C8 (amended): the list sent to the provider is the system prompt
followed by the most recent `MAX_HISTORY_LENGTH` (10) elements of the
history with the new user utterance already appended last; in
particular, with a full ten-message history the provider sees the nine
most recent history messages plus the new utterance after the system
prompt. -/
theorem C8_assembled_prompt (systemPrompt : Msg) (history : List Msg) (u : String) :
    assembleMessages systemPrompt history u =
      systemPrompt ::
        (history ++ [Msg.mk "user" u]).drop
          ((history ++ [Msg.mk "user" u]).length - MAX_HISTORY_LENGTH) ∧
    (history.length = MAX_HISTORY_LENGTH →
      assembleMessages systemPrompt history u =
        systemPrompt :: (history.drop 1 ++ [Msg.mk "user" u])) := by
  have hM : MAX_HISTORY_LENGTH = 10 := rfl
  have hmain : assembleMessages systemPrompt history u =
      systemPrompt ::
        (history ++ [Msg.mk "user" u]).drop
          ((history ++ [Msg.mk "user" u]).length - MAX_HISTORY_LENGTH) := by
    dsimp only [assembleMessages]
    split
    · next hgt =>
      congr 1
      have hidx : (systemPrompt :: (history ++ [Msg.mk "user" u])).length -
          MAX_HISTORY_LENGTH =
          ((history ++ [Msg.mk "user" u]).length - MAX_HISTORY_LENGTH) + 1 := by
        simp only [List.length_cons] at hgt ⊢
        omega
      rw [hidx, List.drop_succ_cons]
    · next hng =>
      have hz : (history ++ [Msg.mk "user" u]).length - MAX_HISTORY_LENGTH = 0 := by
        simp only [List.length_cons] at hng
        omega
      rw [hz, List.drop_zero]
  refine ⟨hmain, ?_⟩
  intro h10
  rw [hmain]
  congr 1
  have hidx : (history ++ [Msg.mk "user" u]).length - MAX_HISTORY_LENGTH = 1 := by
    simp only [List.length_append, List.length_cons, List.length_nil]
    omega
  rw [hidx]
  exact List.drop_append_of_le_length (by omega)

/-- Witness for the amended C8 theorem at a concrete full history. -/
theorem C8_assembled_prompt_witness :
    tenHistory.length = MAX_HISTORY_LENGTH ∧
    assembleMessages (Msg.mk "system" "sys2") tenHistory "u2" =
      Msg.mk "system" "sys2" :: (tenHistory.drop 1 ++ [Msg.mk "user" "u2"]) :=
  ⟨by decide,
   (C8_assembled_prompt (Msg.mk "system" "sys2") tenHistory "u2").2 (by decide)⟩

/-! ## Claim C2 -/

/-- C2: when the user's most recent durable message has timestamp `t`,
session resolution resumes that message's session id at any instant
strictly less than two hours after `t` (in particular at `t + 1h59m`),
and allocates the freshly minted session id at or after two hours (in
particular at exactly `t + 2h` and at `t + 2h01m`): the boundary at
exactly two hours is fixed on the "new session" side, because the
source compares with a strict `<`. -/
theorem C2_resumability_boundary (msgs : List StoredMsg) (m : StoredMsg)
    (freshId : String) (h : latestMessage msgs = some m) :
    resolve_or_create (m.timestamp + 7140) msgs freshId = m.session_id ∧
    resolve_or_create (m.timestamp + 7200) msgs freshId = freshId ∧
    resolve_or_create (m.timestamp + 7260) msgs freshId = freshId ∧
    (∀ now : Int, now - m.timestamp < 7200 →
      resolve_or_create now msgs freshId = m.session_id) ∧
    (∀ now : Int, 7200 ≤ now - m.timestamp →
      resolve_or_create now msgs freshId = freshId) := by
  have hW : RESUME_WINDOW_SECONDS = 7200 := rfl
  refine ⟨?_, ?_, ?_, ?_, ?_⟩
  · have hc : (7140 : Int) < RESUME_WINDOW_SECONDS := by rw [hW]; omega
    simp [resolve_or_create, get_active_session, h, hc]
  · have hc : ¬ ((7200 : Int) < RESUME_WINDOW_SECONDS) := by rw [hW]; omega
    simp [resolve_or_create, get_active_session, h, hc]
  · have hc : ¬ ((7260 : Int) < RESUME_WINDOW_SECONDS) := by rw [hW]; omega
    simp [resolve_or_create, get_active_session, h, hc]
  · intro now hnow
    have hc : now - m.timestamp < RESUME_WINDOW_SECONDS := by rw [hW]; exact hnow
    simp [resolve_or_create, get_active_session, h, hc]
  · intro now hnow
    have hc : ¬ (now - m.timestamp < RESUME_WINDOW_SECONDS) := by rw [hW]; omega
    simp [resolve_or_create, get_active_session, h, hc]

/-- Witness for C2 with one concrete durable message. -/
theorem C2_resumability_boundary_witness :
    latestMessage [StoredMsg.mk "s1" 0] = some (StoredMsg.mk "s1" 0) ∧
    (resolve_or_create ((StoredMsg.mk "s1" 0).timestamp + 7140)
        [StoredMsg.mk "s1" 0] "s_fresh" = (StoredMsg.mk "s1" 0).session_id ∧
     resolve_or_create ((StoredMsg.mk "s1" 0).timestamp + 7200)
        [StoredMsg.mk "s1" 0] "s_fresh" = "s_fresh" ∧
     resolve_or_create ((StoredMsg.mk "s1" 0).timestamp + 7260)
        [StoredMsg.mk "s1" 0] "s_fresh" = "s_fresh" ∧
     (∀ now : Int, now - (StoredMsg.mk "s1" 0).timestamp < 7200 →
       resolve_or_create now [StoredMsg.mk "s1" 0] "s_fresh" =
         (StoredMsg.mk "s1" 0).session_id) ∧
     (∀ now : Int, 7200 ≤ now - (StoredMsg.mk "s1" 0).timestamp →
       resolve_or_create now [StoredMsg.mk "s1" 0] "s_fresh" = "s_fresh")) :=
  ⟨by decide, C2_resumability_boundary [StoredMsg.mk "s1" 0] (StoredMsg.mk "s1" 0)
    "s_fresh" (by decide)⟩

/-! ## Claim C4 -/

/-- C4 (counterexample): ending a session that is present in memory
with an empty buffer returns `ended = true` (not `false` as claimed),
while indeed performing no store writes: the empty-buffer branch of the
flush reports success with nothing to save, and `end_session` then
clears the session and returns `true`. -/
theorem C4_counterexample :
    (end_session { db := [], mem := some [] } true).1 = true ∧
    (end_session { db := [], mem := some [] } true).2.db = [] := by
  decide

/-- C4 (amended): with the store healthy, `end_session` returns `false`
exactly when the session is not found in memory (and then changes
nothing), and this is not an error; ending a session that is in memory
with an empty buffer returns `true` and performs no store writes. -/
theorem C4_end_session_not_active (s : SessionState) :
    ((end_session s true).1 = false ↔ s.mem = none) ∧
    (s.mem = none → (end_session s true).2 = s) ∧
    (s.mem = some [] →
      (end_session s true).1 = true ∧ (end_session s true).2.db = s.db) := by
  rcases s with ⟨db, mem⟩
  cases mem with
  | none =>
    refine ⟨?_, ?_, ?_⟩
    · simp [end_session, save_session_messages_from_memory]
    · intro _
      rfl
    · intro hcontr
      simp at hcontr
  | some buf =>
    have h1 : (end_session ⟨db, some buf⟩ true).1 = true := by
      simp only [end_session, save_session_messages_from_memory]
      split_ifs <;> simp_all
    refine ⟨?_, ?_, ?_⟩
    · rw [h1]
      simp
    · intro hcontr
      simp at hcontr
    · intro hbuf
      have hb : buf = [] := by
        simpa using hbuf
      subst hb
      exact ⟨h1, rfl⟩

/-- Witness for the amended C4 theorem: a session absent from memory
ends with `false`, one present with an empty buffer ends with `true`
and its durable rows untouched. -/
theorem C4_end_session_not_active_witness :
    (end_session { db := [], mem := none } true).1 = false ∧
    ((end_session { db := [Msg.mk "user" "x"], mem := some [] } true).1 = true ∧
     (end_session { db := [Msg.mk "user" "x"], mem := some [] } true).2.db =
       SessionState.db { db := [Msg.mk "user" "x"], mem := some [] }) :=
  ⟨(C4_end_session_not_active { db := [], mem := none }).1.mpr rfl,
   (C4_end_session_not_active { db := [Msg.mk "user" "x"], mem := some [] }).2.2 rfl⟩

/-! ## Claim C5 -/

/-- C5: if a flush reports success, flushing the same session again
with no new messages appended in between succeeds, saves zero
messages, and leaves every durable row unchanged; and whenever the
in-memory buffer holds no surplus over the durable count the flush is
a no-op that still reports success. -/
theorem C5_flush_idempotent (s : SessionState) (c1 c2 : Bool)
    (h : (save_session_messages_from_memory s c1).1 = true) :
    save_session_messages_from_memory
        (save_session_messages_from_memory s c1).2.2 c2 =
      (true, 0, (save_session_messages_from_memory s c1).2.2) ∧
    (∀ buf : List Msg, s.mem = some buf → buf.length ≤ s.db.length →
      save_session_messages_from_memory s c2 = (true, 0, s)) := by
  constructor
  · cases hm : s.mem with
    | none =>
      simp [save_session_messages_from_memory, hm] at h
    | some buf =>
      have hmem' : (save_session_messages_from_memory s c1).2.2.mem = some buf := by
        rw [save_mem_unchanged]
        exact hm
      have hge := save_success_db_ge s c1 buf hm h
      exact save_noop_of_no_surplus _ c2 buf hmem' hge
  · intro buf hmem hle
    exact save_noop_of_no_surplus s c2 buf hmem hle

/-- Witness for C5: a one-message session flushed twice; the first
flush succeeds and the second saves nothing. -/
theorem C5_flush_idempotent_witness :
    (save_session_messages_from_memory
        { db := [], mem := some [Msg.mk "user" "w"] } true).1 = true ∧
    (save_session_messages_from_memory
        (save_session_messages_from_memory
          { db := [], mem := some [Msg.mk "user" "w"] } true).2.2 true =
      (true, 0,
        (save_session_messages_from_memory
          { db := [], mem := some [Msg.mk "user" "w"] } true).2.2) ∧
     (∀ buf : List Msg,
        SessionState.mem { db := [], mem := some [Msg.mk "user" "w"] } = some buf →
        buf.length ≤ (SessionState.db { db := [], mem := some [Msg.mk "user" "w"] }).length →
        save_session_messages_from_memory
            { db := [], mem := some [Msg.mk "user" "w"] } true =
          (true, 0, { db := [], mem := some [Msg.mk "user" "w"] }))) :=
  ⟨by decide,
   C5_flush_idempotent { db := [], mem := some [Msg.mk "user" "w"] } true true (by decide)⟩

/-! ## Claim C6 -/

/-- C6: when the Completion Provider fails, the non-streaming call
returns the fixed apologetic message with the assistant turn not
appended to the in-memory history, the streaming call yields exactly
one error event and likewise appends no assistant turn, and in both
modes the user utterance recorded before the provider call is still
present as the last entry of the buffer.  The embedding performs
exactly one provider invocation per call, so no automatic retry
exists. -/
theorem C6_provider_failure (buf : List Msg) (userInput : String)
    (tts : String → Option String) :
    (generate_response buf userInput ProviderResult.fail).2 = nonStreamErrorMessage ∧
    (generate_response buf userInput ProviderResult.fail).1 =
      appendBounded buf (Msg.mk "user" userInput) ∧
    (∃ pre : List Msg,
      (generate_response buf userInput ProviderResult.fail).1 =
        pre ++ [Msg.mk "user" userInput]) ∧
    (generate_response_streaming true tts buf userInput StreamProviderResult.fail).2 =
      [StreamEvent.error streamErrorMessage] ∧
    (generate_response_streaming true tts buf userInput StreamProviderResult.fail).1 =
      appendBounded buf (Msg.mk "user" userInput) := by
  refine ⟨rfl, rfl, ?_, rfl, rfl⟩
  have hred : (generate_response buf userInput ProviderResult.fail).1 =
      appendBounded buf (Msg.mk "user" userInput) := rfl
  rw [hred]
  unfold appendBounded
  split
  · next hgt =>
    refine ⟨buf.drop ((buf ++ [Msg.mk "user" userInput]).length - MAX_HISTORY_LENGTH), ?_⟩
    rw [List.drop_append_of_le_length]
    simp only [List.length_append, List.length_cons, List.length_nil]
    have hM : MAX_HISTORY_LENGTH = 10 := rfl
    omega
  · exact ⟨buf, rfl⟩

/-! ## Claim C7 -/

/-- C7: on its success path `summarize_session` increments the durable
`total_sessions` counter by exactly one, and the end-of-session HTTP
flow separately increments the same counter unconditionally; so a run
of the HTTP end-session flow in which the summarization succeeds and
the profile exists increases `total_sessions` by exactly two. -/
theorem C7_double_session_count (s : SessionState) (flushOk : Bool) (p : Profile)
    (out tsStr : String) (hne : ¬ out = "")
    (hts : containsSubstring out tsStr = true)
    (htr : ¬ (end_session s flushOk).2.db.isEmpty) :
    summarize_session (some p) true (end_session s flushOk).2.db (some out) tsStr true =
      (true, some { cumulative_summary := out,
                    total_sessions := p.total_sessions + 1 }) ∧
    (end_session_and_summarize s flushOk (some p) true (some out) tsStr true true).2.1 =
      true ∧
    (end_session_and_summarize s flushOk (some p) true (some out) tsStr true true).2.2.2 =
      some { cumulative_summary := out, total_sessions := p.total_sessions + 2 } := by
  have hcond : ¬ (out = "" ∨ ¬ containsSubstring out tsStr = true) := by
    rintro (h1 | h2)
    · exact hne h1
    · exact h2 hts
  have hsum : summarize_session (some p) true (end_session s flushOk).2.db
      (some out) tsStr true =
      (true, some { cumulative_summary := out,
                    total_sessions := p.total_sessions + 1 }) := by
    simp only [summarize_session, get_or_create_user_profile]
    rw [if_neg htr, if_neg hcond]
    simp
  refine ⟨hsum, ?_, ?_⟩
  · dsimp only [end_session_and_summarize]
    rw [hsum]
  · dsimp only [end_session_and_summarize]
    rw [hsum]
    have harith : p.total_sessions + 1 + 1 = p.total_sessions + 2 := by omega
    simp [harith]

/-- Witness for C7: ending a fresh one-turn session and folding it into
a default profile bumps the counter from zero to two. -/
theorem C7_double_session_count_witness :
    (¬ "- *2024-01-01 10:00:* Practiced algebra." = "" ∧
     containsSubstring "- *2024-01-01 10:00:* Practiced algebra." "2024-01-01 10:00" = true ∧
     ¬ (end_session { db := [], mem := some [Msg.mk "user" "q"] } true).2.db.isEmpty) ∧
    (end_session_and_summarize { db := [], mem := some [Msg.mk "user" "q"] } true
        (some defaultProfile) true (some "- *2024-01-01 10:00:* Practiced algebra.")
        "2024-01-01 10:00" true true).2.2.2 =
      some { cumulative_summary := "- *2024-01-01 10:00:* Practiced algebra.",
             total_sessions := defaultProfile.total_sessions + 2 } :=
  ⟨⟨by decide, by decide, by decide⟩,
   (C7_double_session_count { db := [], mem := some [Msg.mk "user" "q"] } true
      defaultProfile "- *2024-01-01 10:00:* Practiced algebra." "2024-01-01 10:00"
      (by decide) (by decide) (by decide)).2.2⟩

/-! ## Claim C9 -/

/-- C9 (counterexample): a store failure while committing the
first-time user profile row propagates out of `create_session` as a
raised exception (the explicit re-raise in the profile bootstrap) —
not a success indicator or best-effort fallback value — refuting the
claim that no public core operation lets a store exception escape. -/
theorem C9_counterexample :
    create_session none false "session_x" = Except.error () := rfl

/-- C9 (amended): the flush-based operations contain their store
failures — a failed flush returns `false` with the state rolled back
and both `end_session` and `save_session` report it as a boolean — and
`summarize_session` returns `false` on a failed final commit; but
`create_session` propagates a profile-creation store exception to its
caller instead of returning an indicator (the same bootstrap also runs
inside `generate_response`'s prompt construction, outside its provider
handler). -/
theorem C9_error_containment (s : SessionState) (existing : Option Profile)
    (cOk : Bool) (tr : List Msg) (llm : Option String) (ts sid : String) :
    (save_session_messages_from_memory s false).2.2 = s ∧
    ((end_session s false).1 = false → (end_session s false).2 = s) ∧
    ((save_session s false).1 = false → (save_session s false).2 = s) ∧
    (summarize_session existing cOk tr llm ts false).1 = false ∧
    create_session none false sid = Except.error () := by
  have h1 : (save_session_messages_from_memory s false).2.2 = s := by
    rcases s with ⟨db, mem⟩
    cases mem with
    | none => rfl
    | some buf =>
      simp only [save_session_messages_from_memory]
      split_ifs <;> simp_all
  refine ⟨h1, ?_, ?_, ?_, rfl⟩
  · intro _
    dsimp only [end_session]
    split
    · next hc =>
      dsimp only [end_session] at *
      rw [h1] at *
      simp_all
    · rw [h1]
  · intro _
    dsimp only [save_session]
    rw [h1]
  · dsimp only [summarize_session]
    split
    · rfl
    · split
      · rfl
      · split
        · rfl
        · split_ifs <;> simp_all

/-- Witness for the amended C9 theorem: a session with one unflushed
message meets every hypothesis when the commit oracle fails. -/
theorem C9_error_containment_witness :
    (save_session_messages_from_memory { db := [], mem := some [Msg.mk "user" "y"] }
        false).2.2 = { db := [], mem := some [Msg.mk "user" "y"] } ∧
    (end_session { db := [], mem := some [Msg.mk "user" "y"] } false).2 =
      { db := [], mem := some [Msg.mk "user" "y"] } ∧
    (save_session { db := [], mem := some [Msg.mk "user" "y"] } false).2 =
      { db := [], mem := some [Msg.mk "user" "y"] } ∧
    (summarize_session none true [] none "" false).1 = false ∧
    create_session none false "session_y" = Except.error () :=
  ⟨(C9_error_containment { db := [], mem := some [Msg.mk "user" "y"] } none true []
      none "" "session_y").1,
   (C9_error_containment { db := [], mem := some [Msg.mk "user" "y"] } none true []
      none "" "session_y").2.1 (by decide),
   (C9_error_containment { db := [], mem := some [Msg.mk "user" "y"] } none true []
      none "" "session_y").2.2.1 (by decide),
   (C9_error_containment { db := [], mem := some [Msg.mk "user" "y"] } none true []
      none "" "session_y").2.2.2.1,
   (C9_error_containment { db := [], mem := some [Msg.mk "user" "y"] } none true []
      none "" "session_y").2.2.2.2⟩

/-! ## Claim C10 -/

/-- C10: `save_session` persists exactly what `end_session`'s flush
would persist — the durable rows and the reported success are
identical — while leaving the in-memory side untouched: the session's
buffer (and its presence in active memory) is the same before and
after the call, whether or not the save succeeds. -/
theorem C10_save_session_frame (s : SessionState) (c : Bool) :
    (save_session s c).2.mem = s.mem ∧
    (save_session s c).2.db = (end_session s c).2.db ∧
    (save_session s c).1 = (end_session s c).1 := by
  refine ⟨save_mem_unchanged s c, ?_, ?_⟩
  · dsimp only [save_session, end_session]
    split
    · rfl
    · rfl
  · dsimp only [save_session, end_session]
    split
    · next hc => exact hc
    · next hc => simp [Bool.not_eq_true] at hc; exact hc

end TutorCore
